import Mathlib

/-!
Verification development for a three-phase-commit (3PC) coordinator/participant
system (`coordinator.py`, `participant.py`).  The Python classes are shallowly
embedded: Python dicts become insertion-ordered association lists, Python sets
become duplicate-free lists with guarded insertion, sockets and wall-clock time
are abstracted into explicit environment records that supply the synchronous
replies, the delayed `VOTE_RESPONSE`/`ACK_RESPONSE` frames observed during a
wait loop, the registrations processed while a wait is in progress, and the
points at which a `crash` command is observed.  Wall-clock timestamps carried
in history entries are irrelevant to every property below and are omitted.
-/

/-- Participant identifier (a plain string in the source). -/
abbrev Pid := String

/-- Opaque transaction payload: the coordinator only stores and forwards it
(`transaction_data` is a parsed `k=v` mapping in `coordinator.py`). -/
abbrev TxData := List (String × String)

/-- Modelled from the spec: `protocol.py` (imported as `Message`/`MessageType`
by both nodes) is not part of the sources; section 3 of the specification
lists the message tag set, which is all the embedding needs. -/
inductive MsgType where
  | CANCOMMIT | CANCOMMIT_VOTE_YES | CANCOMMIT_VOTE_NO | CANCOMMIT_ABORT
  | PRECOMMIT | PRECOMMIT_VOTE_YES | PRECOMMIT_VOTE_NO | PRECOMMIT_ABORT
  | COMMIT | ABORT | ACK_COMMIT | ACK_ABORT
  | QUERY_STATE | STATE_RESPONSE | REQUEST_HISTORY | HISTORY_RESPONSE
deriving DecidableEq, Repr

/-- Modelled from the spec: the `.value` string of each tag (the coordinator
stores `message.msg_type.value` into the per-transaction `acks` dict and
compares it with the literals `ACK_COMMIT` / `ACK_ABORT`). -/
def MsgType.value : MsgType → String
  | .CANCOMMIT => "CANCOMMIT"
  | .CANCOMMIT_VOTE_YES => "CANCOMMIT_VOTE_YES"
  | .CANCOMMIT_VOTE_NO => "CANCOMMIT_VOTE_NO"
  | .CANCOMMIT_ABORT => "CANCOMMIT_ABORT"
  | .PRECOMMIT => "PRECOMMIT"
  | .PRECOMMIT_VOTE_YES => "PRECOMMIT_VOTE_YES"
  | .PRECOMMIT_VOTE_NO => "PRECOMMIT_VOTE_NO"
  | .PRECOMMIT_ABORT => "PRECOMMIT_ABORT"
  | .COMMIT => "COMMIT"
  | .ABORT => "ABORT"
  | .ACK_COMMIT => "ACK_COMMIT"
  | .ACK_ABORT => "ACK_ABORT"
  | .QUERY_STATE => "QUERY_STATE"
  | .STATE_RESPONSE => "STATE_RESPONSE"
  | .REQUEST_HISTORY => "REQUEST_HISTORY"
  | .HISTORY_RESPONSE => "HISTORY_RESPONSE"

/-- Coordinator-side transaction status strings (`tx_info['status']`). -/
inductive TxStatus where
  | WAITING | WAITED | PREPARING | PREPARED
  | COMMITTING | ABORTING | COMMITTED | ABORTED
deriving DecidableEq, Repr

/-- One entry of `self.transaction_history` (`transaction_id`, `status`,
`data`; the `timestamp` field is wall-clock time and is abstracted away). -/
structure HEntry where
  transaction_id : String
  status : TxStatus
  data : TxData
deriving DecidableEq, Repr

/-! ### Association lists standing in for Python dicts

Python dict assignment `d[k] = v` replaces the value of an existing key in
place (keeping insertion order) and appends a new key at the end; `k in d`
is key membership; `d[k]` is lookup.  `upsert`, `alookup` and `akeys` mirror
exactly that. -/

/-- Keys of an association list, in insertion order. -/
def akeys {β : Type} (l : List (String × β)) : List String := l.map Prod.fst

/-- Python dict lookup `d.get(k)`. -/
def alookup {β : Type} : List (String × β) → String → Option β
  | [], _ => none
  | (k, v) :: t, x => if k = x then some v else alookup t x

/-- Python dict assignment `d[k] = v`: replace the value of an existing key in
place (insertion order kept), append a fresh key at the end. -/
def upsert {β : Type} : List (String × β) → String → β → List (String × β)
  | [], k, v => [(k, v)]
  | (k0, v0) :: t, k, v =>
      if k0 = k then (k, v) :: t else (k0, v0) :: upsert t k v

/-- Python set `s.add(x)` on a duplicate-free list model. -/
def sadd (l : List String) (x : String) : List String :=
  if x ∈ l then l else l ++ [x]

/-- Python set `s.remove(x)` / `s.discard(x)` on the list model (the source
always guards `remove` with a membership test, so discard semantics match). -/
def sremove (l : List String) (x : String) : List String :=
  l.filter (fun y => y ≠ x)

/-- The loop `for p in ps: if p not in m: m[p] = d` used by the coordinator to
down-code missing votes to NO and missing ACKs to `TIMEOUT`. -/
def fillMissing {β : Type} : List (String × β) → List String → β → List (String × β)
  | m, [], _ => m
  | m, p :: ps, d =>
      match alookup m p with
      | none => fillMissing (m ++ [(p, d)]) ps d
      | some _ => fillMissing m ps d

/-- Python `all(m.values())` for a dict of booleans. -/
def allYesB (m : List (String × Bool)) : Bool := m.all (fun e => e.2)

/-- The coordinator's `sum(1 for ack in acks.values() if ack == 'ACK_COMMIT')`. -/
def ackSuccessCount (acks : List (String × String)) : Nat :=
  (acks.filter (fun e => e.2 == "ACK_COMMIT")).length

/-! ### Basic association-list lemmas -/

theorem alookup_eq_none {β : Type} (m : List (String × β)) (k : String) :
    alookup m k = none ↔ k ∉ akeys m := by
  induction m with
  | nil => simp [alookup, akeys]
  | cons e t ih =>
      obtain ⟨k0, v0⟩ := e
      by_cases h : k0 = k
      · subst h
        simp [alookup, akeys]
      · simp only [alookup, h, if_neg, not_false_iff, akeys, List.map_cons,
          List.mem_cons]
        rw [ih]
        unfold akeys
        constructor
        · intro hk hc
          rcases hc with hc | hc
          · exact h hc.symm
          · exact hk hc
        · intro hk hc
          exact hk (Or.inr hc)

theorem alookup_append_left {β : Type} {m : List (String × β)} {k : String}
    {v : β} (h : alookup m k = some v) (l : List (String × β)) :
    alookup (m ++ l) k = some v := by
  induction m with
  | nil => simp [alookup] at h
  | cons e t ih =>
      obtain ⟨k0, v0⟩ := e
      by_cases hk : k0 = k
      · simp only [alookup, hk, if_pos] at h ⊢
        exact h
      · simp only [List.cons_append, alookup, hk, if_neg, not_false_iff] at h ⊢
        exact ih h

theorem alookup_append_right {β : Type} {m : List (String × β)} {k : String}
    (h : alookup m k = none) (l : List (String × β)) :
    alookup (m ++ l) k = alookup l k := by
  induction m with
  | nil => simp
  | cons e t ih =>
      obtain ⟨k0, v0⟩ := e
      by_cases hk : k0 = k
      · simp [alookup, hk] at h
      · simp only [List.cons_append, alookup, hk, if_neg, not_false_iff] at h ⊢
        exact ih h

theorem alookup_mem {β : Type} {m : List (String × β)} {k : String} {v : β}
    (h : alookup m k = some v) : (k, v) ∈ m := by
  induction m with
  | nil => simp [alookup] at h
  | cons e t ih =>
      obtain ⟨k0, v0⟩ := e
      by_cases hk : k0 = k
      · simp only [alookup, hk, if_pos, Option.some.injEq] at h
        subst hk; subst h
        exact List.mem_cons_self _ _
      · simp only [alookup, hk, if_neg, not_false_iff] at h
        exact List.mem_cons_of_mem _ (ih h)

theorem mem_alookup {β : Type} {m : List (String × β)} {k : String} {v : β}
    (hnd : (akeys m).Nodup) (h : (k, v) ∈ m) : alookup m k = some v := by
  induction m with
  | nil => simp at h
  | cons e t ih =>
      obtain ⟨k0, v0⟩ := e
      rw [akeys, List.map_cons, List.nodup_cons] at hnd
      rcases List.mem_cons.mp h with h1 | h1
      · rw [Prod.mk.injEq] at h1
        simp [alookup, h1.1.symm, h1.2]
      · have hk : k0 ≠ k := by
          intro hk0
          subst hk0
          exact hnd.1 (List.mem_map.mpr ⟨(k0, v), h1, rfl⟩)
        simp only [alookup, hk, if_neg, not_false_iff]
        exact ih hnd.2 h1

theorem alookup_upsert_self {β : Type} (m : List (String × β)) (k : String)
    (v : β) : alookup (upsert m k v) k = some v := by
  induction m with
  | nil => simp [upsert, alookup]
  | cons e t ih =>
      obtain ⟨k0, v0⟩ := e
      by_cases hk : k0 = k
      · simp [upsert, hk, alookup]
      · simp [upsert, hk, alookup, ih]

theorem alookup_upsert_ne {β : Type} (m : List (String × β)) (k x : String)
    (v : β) (hx : x ≠ k) : alookup (upsert m k v) x = alookup m x := by
  induction m with
  | nil => simp [upsert, alookup, hx.symm]
  | cons e t ih =>
      obtain ⟨k0, v0⟩ := e
      by_cases hk : k0 = k
      · subst hk
        simp [upsert, alookup, hx.symm, Ne.symm hx]
      · simp only [upsert, hk, if_neg, not_false_iff, alookup]
        by_cases hx0 : k0 = x <;> simp [hx0, ih]

theorem akeys_upsert {β : Type} (m : List (String × β)) (k : String) (v : β) :
    akeys (upsert m k v) = if k ∈ akeys m then akeys m else akeys m ++ [k] := by
  induction m with
  | nil => simp [upsert, akeys]
  | cons e t ih =>
      obtain ⟨k0, v0⟩ := e
      by_cases hk : k0 = k
      · subst hk
        simp [upsert, akeys]
      · simp only [upsert, hk, if_neg, not_false_iff, akeys, List.map_cons] at ih ⊢
        rw [ih]
        by_cases hmem : k ∈ List.map Prod.fst t <;>
          simp [hmem, Ne.symm hk, akeys]

theorem mem_akeys_upsert {β : Type} (m : List (String × β)) (k : String)
    (v : β) (x : String) : x ∈ akeys (upsert m k v) ↔ x ∈ akeys m ∨ x = k := by
  rw [akeys_upsert]
  by_cases h : k ∈ akeys m
  · simp only [h, if_pos]
    constructor
    · exact Or.inl
    · rintro (hx | hx)
      · exact hx
      · exact hx ▸ h
  · simp [h]

/-! ### Lemmas about the missing-entry fill loop -/

theorem fillMissing_preserves {β : Type} {m : List (String × β)} {k : String}
    {v : β} (ps : List String) (d : β) (h : alookup m k = some v) :
    alookup (fillMissing m ps d) k = some v := by
  induction ps generalizing m with
  | nil => exact h
  | cons p t ih =>
      unfold fillMissing
      cases hm : alookup m p with
      | none => exact ih (alookup_append_left h _)
      | some w => exact ih h

theorem fillMissing_lookup {β : Type} {m : List (String × β)} {p : String}
    {ps : List String} (d : β) (hp : p ∈ ps) :
    alookup (fillMissing m ps d) p = some ((alookup m p).getD d) := by
  induction ps generalizing m with
  | nil => simp at hp
  | cons q t ih =>
      unfold fillMissing
      by_cases hq : q = p
      · subst hq
        cases hm : alookup m q with
        | none =>
            have h1 : alookup (m ++ [(q, d)]) q = some d := by
              rw [alookup_append_right hm]
              simp [alookup]
            rcases List.mem_cons.mp hp with _ | hq'
            · simp [hm, fillMissing_preserves t d h1]
            · rw [ih hq', h1]
              simp [hm]
        | some w =>
            rcases List.mem_cons.mp hp with _ | hq'
            · simp [hm, fillMissing_preserves t d hm]
            · rw [ih hq', hm]
      · have hp' : p ∈ t := by
          rcases List.mem_cons.mp hp with h1 | h1
          · exact absurd h1.symm hq
          · exact h1
        cases hm : alookup m q with
        | none =>
            rw [ih hp']
            have : alookup (m ++ [(q, d)]) p = alookup m p := by
              cases hmp : alookup m p with
              | none =>
                  rw [alookup_append_right hmp]
                  simp [alookup, hq]
              | some w => exact alookup_append_left hmp _
            rw [this]
        | some w => exact ih hp'

theorem fillMissing_keys_subset {β : Type} {m : List (String × β)}
    {ps : List String} (d : β) {k : String}
    (h : k ∈ akeys (fillMissing m ps d)) : k ∈ akeys m ∨ k ∈ ps := by
  induction ps generalizing m with
  | nil => exact Or.inl h
  | cons p t ih =>
      unfold fillMissing at h
      cases hm : alookup m p with
      | none =>
          rw [hm] at h
          rcases ih h with h1 | h1
          · unfold akeys at h1
            rw [List.map_append, List.mem_append] at h1
            rcases h1 with h2 | h2
            · exact Or.inl h2
            · simp at h2
              exact Or.inr (List.mem_cons.mpr (Or.inl h2))
          · exact Or.inr (List.mem_cons_of_mem _ h1)
      | some w =>
          rw [hm] at h
          rcases ih h with h1 | h1
          · exact Or.inl h1
          · exact Or.inr (List.mem_cons_of_mem _ h1)

theorem fillMissing_keys_nodup {β : Type} {m : List (String × β)}
    (ps : List String) (d : β) (h : (akeys m).Nodup) :
    (akeys (fillMissing m ps d)).Nodup := by
  induction ps generalizing m with
  | nil => exact h
  | cons p t ih =>
      unfold fillMissing
      cases hm : alookup m p with
      | none =>
          apply ih
          unfold akeys
          rw [List.map_append]
          simp only [List.map_cons, List.map_nil]
          rw [List.nodup_append]
          refine ⟨h, List.nodup_singleton p, ?_⟩
          intro x hx hx1
          simp at hx1
          subst hx1
          exact (alookup_eq_none m x).mp hm hx
      | some w => exact ih h

/-- A filter that drops at least one element shortens the list. -/
theorem length_filter_lt_of_mem {α : Type} {p : α → Bool} {l : List α} {a : α}
    (ha : a ∈ l) (hpa : p a = false) : (l.filter p).length < l.length := by
  induction l with
  | nil => simp at ha
  | cons b t ih =>
      rcases List.mem_cons.mp ha with h1 | h1
      · subst h1
        rw [List.filter_cons, hpa]
        simp only [Bool.false_eq_true, if_neg, not_false_iff, List.length_cons]
        exact Nat.lt_succ_of_le (List.length_filter_le p t)
      · rw [List.filter_cons]
        by_cases hb : p b = true
        · simp only [hb, if_pos, List.length_cons]
          exact Nat.succ_lt_succ (ih h1)
        · simp only [hb, if_neg, List.length_cons]
          exact Nat.lt_succ_of_lt (ih h1)

/-- Core counting equivalence behind the DoCommit decision: after the
`TIMEOUT` fill over the snapshot `ps`, the coordinator's count-based test
`success_count >= len(participant_list)` holds exactly when every snapshot
participant's recorded ACK is `ACK_COMMIT` — provided the ACKs collected
before the fill came only from snapshot participants. -/
theorem ackCount_ge_iff (ps : List String) (m : List (String × String))
    (h1 : (akeys m).Nodup) (h2 : ∀ k ∈ akeys m, k ∈ ps) (h3 : ps.Nodup) :
    ps.length ≤ ackSuccessCount (fillMissing m ps "TIMEOUT") ↔
      ∀ p ∈ ps, alookup (fillMissing m ps "TIMEOUT") p = some "ACK_COMMIT" := by
  have hndF : (akeys (fillMissing m ps "TIMEOUT")).Nodup :=
    fillMissing_keys_nodup ps "TIMEOUT" h1
  have hsubF : ∀ k ∈ akeys (fillMissing m ps "TIMEOUT"), k ∈ ps := by
    intro k hk
    rcases fillMissing_keys_subset "TIMEOUT" hk with h | h
    · exact h2 k h
    · exact h
  have hlenF : (fillMissing m ps "TIMEOUT").length ≤ ps.length := by
    have := (List.subperm_of_subset hndF hsubF).length_le
    unfold akeys at this
    rwa [List.length_map] at this
  constructor
  · intro hc p hp
    rw [fillMissing_lookup "TIMEOUT" hp]
    by_contra hne
    have hne2 : ((alookup m p).getD "TIMEOUT" == "ACK_COMMIT") = false := by
      rw [beq_eq_false_iff_ne]
      intro he
      exact hne (by rw [he])
    have hmem : (p, (alookup m p).getD "TIMEOUT") ∈ fillMissing m ps "TIMEOUT" :=
      alookup_mem (fillMissing_lookup "TIMEOUT" hp)
    have hlt : ackSuccessCount (fillMissing m ps "TIMEOUT") <
        (fillMissing m ps "TIMEOUT").length :=
      length_filter_lt_of_mem hmem hne2
    exact absurd hc (by omega)
  · intro hall
    have hfe : (fillMissing m ps "TIMEOUT").filter (fun e => e.2 == "ACK_COMMIT") =
        fillMissing m ps "TIMEOUT" := by
      apply List.filter_eq_self.mpr
      intro e he
      have hk : e.1 ∈ akeys (fillMissing m ps "TIMEOUT") :=
        List.mem_map.mpr ⟨e, he, rfl⟩
      have hl : alookup (fillMissing m ps "TIMEOUT") e.1 = some e.2 :=
        mem_alookup hndF (by rwa [Prod.mk.eta])
      have := hall e.1 (hsubF e.1 hk)
      rw [hl] at this
      simp only [Option.some.injEq] at this
      simp [this]
    have hsub2 : ps ⊆ akeys (fillMissing m ps "TIMEOUT") := by
      intro p hp
      have := alookup_mem (hall p hp)
      exact List.mem_map.mpr ⟨(p, "ACK_COMMIT"), this, rfl⟩
    have : ps.length ≤ (fillMissing m ps "TIMEOUT").length := by
      have := (List.subperm_of_subset h3 hsub2).length_le
      unfold akeys at this
      rwa [List.length_map] at this
    unfold ackSuccessCount
    rw [hfe]
    exact this

/-- Counting equivalence behind the recovery decision for a `PREPARING` /
`PREPARED` transaction: the code's test
`len(votes) == len(participants) and all(votes.values())` holds exactly when
every snapshot participant has a recorded YES vote — provided recorded votes
came only from snapshot participants. -/
theorem votesFull_iff (parts : List String) (votes : List (String × Bool))
    (h1 : (akeys votes).Nodup) (h2 : ∀ k ∈ akeys votes, k ∈ parts)
    (h3 : parts.Nodup) :
    (votes.length = parts.length ∧ allYesB votes = true) ↔
      ∀ p ∈ parts, alookup votes p = some true := by
  have hkl : (akeys votes).length = votes.length := by
    unfold akeys
    exact List.length_map votes Prod.fst
  constructor
  · rintro ⟨hlen, hyes⟩ p hp
    have hperm : List.Perm (akeys votes) parts := by
      apply (List.subperm_of_subset h1 h2).perm_of_length_le
      rw [hkl, hlen]
    have hpk : p ∈ akeys votes := hperm.mem_iff.mpr hp
    obtain ⟨e, he, hfst⟩ := List.mem_map.mp hpk
    have hl : alookup votes e.1 = some e.2 := mem_alookup h1 (by rwa [Prod.mk.eta])
    have he2 : e.2 = true := by
      have := List.all_eq_true.mp hyes e he
      simpa using this
    rw [← hfst, hl, he2]
  · intro hall
    have hsub2 : parts ⊆ akeys votes := by
      intro p hp
      exact List.mem_map.mpr ⟨(p, true), alookup_mem (hall p hp), rfl⟩
    constructor
    · have ha : (akeys votes).length ≤ parts.length :=
        (List.subperm_of_subset h1 h2).length_le
      have hb : parts.length ≤ (akeys votes).length :=
        (List.subperm_of_subset h3 hsub2).length_le
      rw [← hkl]
      omega
    · apply List.all_eq_true.mpr
      intro e he
      have hk : e.1 ∈ akeys votes := List.mem_map.mpr ⟨e, he, rfl⟩
      have hl : alookup votes e.1 = some e.2 := mem_alookup h1 (by rwa [Prod.mk.eta])
      have := hall e.1 (h2 e.1 hk)
      rw [hl] at this
      simpa using this.symm

/-! ### Participant state machine (`participant.py`)

The four per-transaction collections, the single pending slots and the
crashed flag of `Participant.__init__` (lines 24-35).  Sets are modelled as
duplicate-free lists (`sadd` / `sremove`), `committed_transactions` as a
dict from transaction id to data. -/

structure PState where
  waited_transactions : List String
  prepared_transactions : List String
  committed_transactions : List (String × TxData)
  aborted_transactions : List String
  pending_vote : Option (String × TxData)
  pending_commit : Option (String × TxData)
  pending_abort : Option (String × TxData)
  crashed : Bool
deriving DecidableEq, Repr

/-- The participant with no transactions, as constructed by `__init__`. -/
def pInit : PState :=
  { waited_transactions := [], prepared_transactions := [],
    committed_transactions := [], aborted_transactions := [],
    pending_vote := none, pending_commit := none, pending_abort := none,
    crashed := false }

/-- A timeout thread armed by a message handler (`threading.Thread(...)` in
`_handle_cancommit` / `_handle_precommit` / `_handle_commit` / the three
abort handlers), identified by the kind of wait and the transaction id it
was armed for. -/
inductive PTimer where
  | voteT (tx : String)
  | ackCommitT (tx : String)
  | ackAbortT (tx : String)
deriving DecidableEq, Repr

/-- One observable participant operation: an inbound protocol message, an
operator command, the firing of a timeout thread, or crash / recover.
`recoverOp` carries the history list returned by the coordinator. -/
inductive POp where
  | recvCanCommit (tx : String) (d : TxData)
  | recvPreCommit (tx : String) (d : TxData)
  | recvCommit (tx : String) (d : TxData)
  | recvCanCommitAbort (tx : String) (d : TxData)
  | recvPreCommitAbort (tx : String) (d : TxData)
  | recvAbort (tx : String) (d : TxData)
  | cmdCanCommitVote (yes : Bool)
  | cmdPreCommitVote (yes : Bool)
  | cmdAckCommit
  | cmdAckAbort
  | voteTimeout (tx : String)
  | ackCommitTimeout (tx : String)
  | ackAbortTimeout (tx : String)
  | crashOp
  | recoverOp (history : List HEntry)
deriving DecidableEq, Repr

/-- Result of one participant operation: the new state, the synchronous reply
written back on the inbound connection (`None` models the "reply empty,
answer later" trick), the delayed `VOTE_RESPONSE`/`ACK_RESPONSE` messages
sent on fresh connections, and the timeout threads armed. -/
structure PResult where
  st : PState
  reply : Option MsgType
  sent : List (MsgType × String)
  timers : List PTimer
deriving DecidableEq, Repr

/-- History replay of `_request_history_from_coordinator` (lines 472-486):
a `COMMITTED` entry stores the data under the id and drops the id from
`prepared_transactions`; an `ABORTED` entry adds the id to
`aborted_transactions` and drops it from `prepared_transactions`.  (The
source guards each removal with a membership test, which is exactly what
`sremove` does for an absent id.) -/
def applyHistoryEntry (st : PState) (e : HEntry) : PState :=
  match e.status with
  | .COMMITTED =>
      { st with
        committed_transactions :=
          upsert st.committed_transactions e.transaction_id e.data,
        prepared_transactions :=
          sremove st.prepared_transactions e.transaction_id }
  | .ABORTED =>
      { st with
        aborted_transactions := sadd st.aborted_transactions e.transaction_id,
        prepared_transactions :=
          sremove st.prepared_transactions e.transaction_id }
  | _ => st

/-- One step of the participant.  Inbound messages (`recv*`) model
`_handle_request` / `_process_message` with the crash gate of lines 107-110;
the random failure-injection branch performs no state change and is treated
as the message simply not being scheduled.  Operator commands and timeout
threads run regardless of the crash flag, exactly as in the source (the
command loop and the `_wait_for_*` threads never test `self.crashed`). -/
def pstep (st : PState) (op : POp) : PResult :=
  match op with
  | .recvCanCommit tx d =>
      if st.crashed then ⟨st, none, [], []⟩
      else ⟨{ st with pending_vote := some (tx, d) }, none, [], [.voteT tx]⟩
  | .recvPreCommit tx d =>
      if st.crashed then ⟨st, none, [], []⟩
      else ⟨{ st with pending_vote := some (tx, d) }, none, [], [.voteT tx]⟩
  | .recvCommit tx d =>
      if st.crashed then ⟨st, none, [], []⟩
      else if tx ∈ st.prepared_transactions then
        ⟨{ st with pending_commit := some (tx, d) }, none, [], [.ackCommitT tx]⟩
      else ⟨st, some .ACK_ABORT, [], []⟩
  | .recvCanCommitAbort tx d =>
      if st.crashed then ⟨st, none, [], []⟩
      else ⟨{ st with pending_abort := some (tx, d) }, none, [], [.ackAbortT tx]⟩
  | .recvPreCommitAbort tx d =>
      if st.crashed then ⟨st, none, [], []⟩
      else ⟨{ st with pending_abort := some (tx, d) }, none, [], [.ackAbortT tx]⟩
  | .recvAbort tx d =>
      if st.crashed then ⟨st, none, [], []⟩
      else ⟨{ st with pending_abort := some (tx, d) }, none, [], [.ackAbortT tx]⟩
  | .cmdCanCommitVote yes =>
      match st.pending_vote with
      | none => ⟨st, none, [], []⟩
      | some (tx, _) =>
          if yes then
            ⟨{ st with
                pending_vote := none,
                waited_transactions := sadd st.waited_transactions tx },
              none, [(.CANCOMMIT_VOTE_YES, tx)], []⟩
          else
            ⟨{ st with pending_vote := none }, none,
              [(.CANCOMMIT_VOTE_NO, tx)], []⟩
  | .cmdPreCommitVote yes =>
      match st.pending_vote with
      | none => ⟨st, none, [], []⟩
      | some (tx, _) =>
          if yes then
            ⟨{ st with
                pending_vote := none,
                waited_transactions := sremove st.waited_transactions tx,
                prepared_transactions := sadd st.prepared_transactions tx },
              none, [(.PRECOMMIT_VOTE_YES, tx)], []⟩
          else
            ⟨{ st with pending_vote := none }, none,
              [(.PRECOMMIT_VOTE_NO, tx)], []⟩
  | .cmdAckCommit =>
      match st.pending_commit with
      | none => ⟨st, none, [], []⟩
      | some (tx, d) =>
          if tx ∈ st.prepared_transactions then
            ⟨{ st with
                pending_commit := none,
                committed_transactions := upsert st.committed_transactions tx d,
                prepared_transactions := sremove st.prepared_transactions tx },
              none, [(.ACK_COMMIT, tx)], []⟩
          else
            ⟨{ st with pending_commit := none }, none, [(.ACK_COMMIT, tx)], []⟩
  | .cmdAckAbort =>
      match st.pending_commit with
      | some (tx, _) =>
          ⟨{ st with
              pending_commit := none,
              prepared_transactions := sremove st.prepared_transactions tx,
              aborted_transactions := sadd st.aborted_transactions tx },
            none, [(.ACK_ABORT, tx)], []⟩
      | none =>
          match st.pending_abort with
          | some (tx, _) =>
              ⟨{ st with
                  pending_abort := none,
                  prepared_transactions := sremove st.prepared_transactions tx,
                  aborted_transactions := sadd st.aborted_transactions tx },
                none, [(.ACK_ABORT, tx)], []⟩
          | none => ⟨st, none, [], []⟩
  | .voteTimeout tx =>
      match st.pending_vote with
      | some (tx0, _) =>
          if tx0 = tx then
            ⟨{ st with pending_vote := none }, none,
              [(.CANCOMMIT_VOTE_NO, tx)], []⟩
          else ⟨st, none, [], []⟩
      | none => ⟨st, none, [], []⟩
  | .ackCommitTimeout tx =>
      match st.pending_commit with
      | some (tx0, d) =>
          if tx0 = tx then
            if tx ∈ st.prepared_transactions then
              ⟨{ st with
                  pending_commit := none,
                  committed_transactions := upsert st.committed_transactions tx d,
                  prepared_transactions := sremove st.prepared_transactions tx },
                none, [(.ACK_COMMIT, tx)], []⟩
            else
              ⟨{ st with pending_commit := none }, none, [(.ACK_COMMIT, tx)], []⟩
          else ⟨st, none, [], []⟩
      | none => ⟨st, none, [], []⟩
  | .ackAbortTimeout tx =>
      match st.pending_abort with
      | some (tx0, _) =>
          if tx0 = tx then
            ⟨{ st with
                pending_abort := none,
                prepared_transactions := sremove st.prepared_transactions tx,
                aborted_transactions := sadd st.aborted_transactions tx },
              none, [(.ACK_ABORT, tx)], []⟩
          else ⟨st, none, [], []⟩
      | none => ⟨st, none, [], []⟩
  | .crashOp => ⟨{ st with crashed := true }, none, [], []⟩
  | .recoverOp history =>
      if st.crashed then
        ⟨{ (history.foldl applyHistoryEntry st) with crashed := false },
          none, [], []⟩
      else ⟨st, none, [], []⟩

/-- Run a list of participant operations, keeping only the state. -/
def runOps (st : PState) (ops : List POp) : PState :=
  ops.foldl (fun s op => (pstep s op).st) st

/-! ### Coordinator state (`coordinator.py`) -/

/-- One entry of `self.transactions` (created at lines 200-208): the data,
the participant snapshot taken at start, the three vote dicts (`votec` is
initialised but never read), the ACK dict and the status. -/
structure TxRecord where
  data : TxData
  participants : List Pid
  votes : List (Pid × Bool)
  votep : List (Pid × Bool)
  votec : List (Pid × Bool)
  acks : List (Pid × String)
  status : TxStatus
deriving DecidableEq, Repr

/-- Coordinator shared state: the participant registry (id to host/port),
the transaction table, the append-only history, and the crash flag. -/
structure CoordState where
  participants : List (Pid × (String × Nat))
  transactions : List (String × TxRecord)
  history : List HEntry
  crashed : Bool
deriving DecidableEq, Repr

/-- Update the record of one transaction id in the table (Python mutates the
dict entry in place; a missing id would raise, and every caller writes to an
id it has just read or created). -/
def setTx (txs : List (String × TxRecord)) (txid : String)
    (f : TxRecord → TxRecord) : List (String × TxRecord) :=
  txs.map (fun e => if e.1 = txid then (e.1, f e.2) else e)

/-- REGISTER handling (lines 77-87): an idempotent upsert into the registry,
allowed even while crashed. -/
def handleRegister (st : CoordState) (pid : Pid) (addr : String × Nat) :
    CoordState :=
  { st with participants := upsert st.participants pid addr }

/-- Delayed-vote frame `VOTE_RESPONSE|pid|msg` (lines 89-108): while crashed
the frame is refused (line 73); otherwise if the transaction is known, a
CanCommit vote tag updates `votes`, `PRECOMMIT_VOTE_YES` updates `votep`,
and any other tag falls into the catch-all `else` writing `votep[pid] =
False`. -/
def handleVoteResponse (st : CoordState) (pid : Pid) (m : MsgType)
    (txid : String) : CoordState :=
  if st.crashed then st
  else
    match alookup st.transactions txid with
    | none => st
    | some _ =>
        { st with
          transactions := setTx st.transactions txid (fun tx =>
            match m with
            | .CANCOMMIT_VOTE_YES => { tx with votes := upsert tx.votes pid true }
            | .CANCOMMIT_VOTE_NO => { tx with votes := upsert tx.votes pid false }
            | .PRECOMMIT_VOTE_YES => { tx with votep := upsert tx.votep pid true }
            | _ => { tx with votep := upsert tx.votep pid false }) }

/-- Delayed-ACK frame `ACK_RESPONSE|pid|msg` (lines 110-124): refused while
crashed; otherwise, if the transaction is known, stores the tag's string
value under the sender's id in the `acks` dict. -/
def handleAckResponse (st : CoordState) (pid : Pid) (m : MsgType)
    (txid : String) : CoordState :=
  if st.crashed then st
  else
    match alookup st.transactions txid with
    | none => st
    | some _ =>
        { st with
          transactions := setTx st.transactions txid (fun tx =>
            { tx with acks := upsert tx.acks pid m.value }) }

/-! ### The transaction driver `execute_transaction` (lines 181-623)

The driver is sequential; everything it cannot compute itself is supplied
by a `DriverEnv`: the synchronous reply of each per-participant exchange,
the delayed frames that arrive during each 60-second wait, the REGISTER
frames processed while the phase-1 wait is in progress, and the values of
`self.crashed` at each observation point (line 254, line 322, line 360,
the per-send checks of phase 3, and the phase-3 wait loop). -/

structure DriverEnv where
  txId : String
  sync1 : Pid → Option MsgType
  crash1 : Bool
  delayed1 : List (Pid × MsgType)
  regUpdates : List (Pid × (String × Nat))
  sync2 : Pid → Option MsgType
  crash2 : Bool
  delayed2 : List (Pid × MsgType)
  crashBefore3 : Bool
  sync3 : Pid → Option MsgType
  crash3 : Bool
  crashWait3 : Bool
  delayed3 : List (Pid × MsgType)

/-- Outcome of the driver: final coordinator state, the boolean returned to
the caller, and the outbound protocol sends in order (participant id and
message tag). -/
structure DriverResult where
  st : CoordState
  ret : Bool
  sends : List (Pid × MsgType)
deriving Repr

/-- The participant snapshot `list(self.participants.keys())` taken at
transaction start (lines 202 and 219). -/
def txSnapshot (st : CoordState) : List Pid := st.participants.map Prod.fst

/-- The registry after the REGISTER frames processed during the phase-1
wait, used by the phase-3 / abort send loops (`self.participants.keys()` at
lines 374, 473 and 553 reads the then-current registry). -/
def regAfter (st : CoordState) (env : DriverEnv) : List (Pid × (String × Nat)) :=
  env.regUpdates.foldl (fun r u => upsert r u.1 u.2) st.participants

/-- The vote-collection fold shared by the CANCOMMIT send loop (lines
223-244) and the PRECOMMIT send loop (lines 292-312): a synchronous
CanCommit vote tag updates the `votes` dict, `PRECOMMIT_VOTE_YES` the
`votep` dict, any other non-empty reply the catch-all `votep[p] = False`,
and an empty reply updates nothing. -/
def collectVoteSync (sync : Pid → Option MsgType) (ps : List Pid)
    (init : List (Pid × Bool) × List (Pid × Bool)) :
    List (Pid × Bool) × List (Pid × Bool) :=
  ps.foldl (fun vv p =>
    match sync p with
    | none => vv
    | some .CANCOMMIT_VOTE_YES => (upsert vv.1 p true, vv.2)
    | some .CANCOMMIT_VOTE_NO => (upsert vv.1 p false, vv.2)
    | some .PRECOMMIT_VOTE_YES => (vv.1, upsert vv.2 p true)
    | some _ => (vv.1, upsert vv.2 p false)) init

/-- Delayed `VOTE_RESPONSE` frames applied to the pair (record `votes`,
record `votep`) during a wait loop, with the dispatch of lines 101-108. -/
def applyVoteFrames (init : List (Pid × Bool) × List (Pid × Bool))
    (frames : List (Pid × MsgType)) :
    List (Pid × Bool) × List (Pid × Bool) :=
  frames.foldl (fun vv f =>
    match f.2 with
    | .CANCOMMIT_VOTE_YES => (upsert vv.1 f.1 true, vv.2)
    | .CANCOMMIT_VOTE_NO => (upsert vv.1 f.1 false, vv.2)
    | .PRECOMMIT_VOTE_YES => (vv.1, upsert vv.2 f.1 true)
    | _ => (vv.1, upsert vv.2 f.1 false)) init

/-- ACK send loop of phase 3 and the abort branches: record the synchronous
reply only when it is the expected ACK tag (lines 384-385, 483-484,
563-564). -/
def collectAckSync (sync : Pid → Option MsgType) (want : MsgType)
    (val : String) (ps : List Pid) : List (Pid × String) :=
  ps.foldl (fun a p => if sync p = some want then upsert a p val else a) []

/-- Delayed `ACK_RESPONSE` frames applied to the record `acks` dict during
an ACK wait loop (lines 119-124). -/
def applyAckFrames (a : List (Pid × String)) (frames : List (Pid × MsgType)) :
    List (Pid × String) :=
  frames.foldl (fun m f => upsert m f.1 f.2.value) a

/-- CanCommit sync collection of phase 1, starting from empty local dicts
(lines 216-218). -/
def phase1Sync (st : CoordState) (env : DriverEnv) :
    List (Pid × Bool) × List (Pid × Bool) :=
  collectVoteSync env.sync1 (txSnapshot st) ([], [])

/-- Record `votes` / record `votep` after the delayed frames of the phase-1
wait. The record's `votep` is still `{}` at that point: the synchronous
`PRECOMMIT`-tagged replies of phase 1 went into the local `votep` variable,
which is only stored into the record at line 314. -/
def phase1Delayed (st : CoordState) (env : DriverEnv) :
    List (Pid × Bool) × List (Pid × Bool) :=
  applyVoteFrames ((phase1Sync st env).1, []) env.delayed1

/-- The CanCommit vote dict after the wait and the missing-vote NO fill
(lines 274-281). -/
def phase1Votes (st : CoordState) (env : DriverEnv) : List (Pid × Bool) :=
  fillMissing (phase1Delayed st env).1 (txSnapshot st) false

/-- The `all_yes` test of line 285. -/
def phase1AllYes (st : CoordState) (env : DriverEnv) : Bool :=
  allYesB (phase1Votes st env)

/-- PreCommit sync collection (lines 292-312), starting from the record
`votes` (aliased since line 275) and the local `votep` carried over from
phase 1. -/
def phase2Sync (st : CoordState) (env : DriverEnv) :
    List (Pid × Bool) × List (Pid × Bool) :=
  collectVoteSync env.sync2 (txSnapshot st)
    (phase1Votes st env, (phase1Sync st env).2)

/-- Record `votes` / `votep` after the delayed frames of the phase-2 wait
(the record's `votep` was set to the local dict at line 314). -/
def phase2Delayed (st : CoordState) (env : DriverEnv) :
    List (Pid × Bool) × List (Pid × Bool) :=
  applyVoteFrames (phase2Sync st env) env.delayed2

/-- The PreCommit vote dict after the wait and the NO fill (lines 342-351). -/
def phase2Votep (st : CoordState) (env : DriverEnv) : List (Pid × Bool) :=
  fillMissing (phase2Delayed st env).2 (txSnapshot st) false

/-- The `all_yes` test of line 354. -/
def phase2AllYes (st : CoordState) (env : DriverEnv) : Bool :=
  allYesB (phase2Votep st env)

/-- The `acks` dict of the DoCommit branch after the synchronous sends and
the delayed frames of the ACK wait (lines 371-419). -/
def commitCollectedAcks (st : CoordState) (env : DriverEnv) :
    List (Pid × String) :=
  applyAckFrames
    (collectAckSync env.sync3 .ACK_COMMIT "ACK_COMMIT"
      ((regAfter st env).map Prod.fst))
    env.delayed3

/-- The final `acks` dict of the DoCommit branch, after the `TIMEOUT` fill
over the snapshot (lines 421-427). -/
def commitFinalAcks (st : CoordState) (env : DriverEnv) :
    List (Pid × String) :=
  fillMissing (commitCollectedAcks st env) (txSnapshot st) "TIMEOUT"

/-- The `acks` dict of either abort branch after the synchronous sends and
the delayed frames (lines 470-518 and 550-598; both branches collect
`ACK_ABORT`). -/
def abortCollectedAcks (st : CoordState) (env : DriverEnv) :
    List (Pid × String) :=
  applyAckFrames
    (collectAckSync env.sync3 .ACK_ABORT "ACK_ABORT"
      ((regAfter st env).map Prod.fst))
    env.delayed3

/-- The final `acks` dict of either abort branch, after the `TIMEOUT` fill
over the snapshot (lines 520-526 and 600-606). -/
def abortFinalAcks (st : CoordState) (env : DriverEnv) :
    List (Pid × String) :=
  fillMissing (abortCollectedAcks st env) (txSnapshot st) "TIMEOUT"

/-- `Coordinator.execute_transaction` (lines 181-623).  Refuse when crashed
(line 183); return `False` on an empty registry before creating any record
(lines 195-197 precede the record creation of line 200); then drive
CanCommit over the snapshot, PreCommit over the snapshot, and the DoCommit /
abort branch over the then-current registry, appending exactly one history
entry on every non-crash exit.  A crash observed at a wait tick or before a
phase-3 send returns `False` with the record left at the phase status last
written and no history entry. -/
def execute_transaction (st : CoordState) (env : DriverEnv) (txData : TxData) :
    DriverResult :=
  if st.crashed then ⟨st, false, []⟩
  else if st.participants.isEmpty then ⟨st, false, []⟩
  else
    let snapshot := txSnapshot st
    let tx0 : TxRecord :=
      { data := txData, participants := snapshot, votes := [], votep := [],
        votec := [], acks := [], status := .WAITING }
    let sends1 := snapshot.map (fun p => (p, MsgType.CANCOMMIT))
    let reg1 := regAfter st env
    if env.crash1 then
      ⟨{ st with
          participants := reg1,
          transactions := upsert st.transactions env.txId
            { tx0 with votes := (phase1Sync st env).1 } },
        false, sends1⟩
    else if phase1AllYes st env then
      let sends2 := snapshot.map (fun p => (p, MsgType.PRECOMMIT))
      if env.crash2 then
        ⟨{ st with
            participants := reg1,
            transactions := upsert st.transactions env.txId
              { tx0 with
                votes := (phase2Sync st env).1,
                votep := (phase2Sync st env).2,
                status := .PREPARING } },
          false, sends1 ++ sends2⟩
      else
        let votesF := (phase2Delayed st env).1
        let votepF := phase2Votep st env
        if env.crashBefore3 then
          ⟨{ st with
              participants := reg1,
              transactions := upsert st.transactions env.txId
                { tx0 with
                  votes := votesF, votep := votepF, status := .PREPARED } },
            false, sends1 ++ sends2⟩
        else
          let curReg := reg1.map Prod.fst
          if phase2AllYes st env then
            if env.crash3 then
              ⟨{ st with
                  participants := reg1,
                  transactions := upsert st.transactions env.txId
                    { tx0 with
                      votes := votesF, votep := votepF,
                      status := .COMMITTING } },
                false, sends1 ++ sends2⟩
            else
              let sends3 := curReg.map (fun p => (p, MsgType.COMMIT))
              if env.crashWait3 then
                ⟨{ st with
                    participants := reg1,
                    transactions := upsert st.transactions env.txId
                      { tx0 with
                        votes := votesF, votep := votepF,
                        acks := collectAckSync env.sync3 .ACK_COMMIT
                          "ACK_COMMIT" curReg,
                        status := .COMMITTING } },
                  false, sends1 ++ sends2 ++ sends3⟩
              else
                let a3 := commitFinalAcks st env
                if ackSuccessCount a3 < snapshot.length then
                  ⟨{ st with
                      participants := reg1,
                      transactions := upsert st.transactions env.txId
                        { tx0 with
                          votes := votesF, votep := votepF, acks := a3,
                          status := .ABORTED },
                      history := st.history ++
                        [⟨env.txId, .ABORTED, txData⟩] },
                    false, sends1 ++ sends2 ++ sends3⟩
                else
                  ⟨{ st with
                      participants := reg1,
                      transactions := upsert st.transactions env.txId
                        { tx0 with
                          votes := votesF, votep := votepF, acks := a3,
                          status := .COMMITTED },
                      history := st.history ++
                        [⟨env.txId, .COMMITTED, txData⟩] },
                    true, sends1 ++ sends2 ++ sends3⟩
          else
            if env.crash3 then
              ⟨{ st with
                  participants := reg1,
                  transactions := upsert st.transactions env.txId
                    { tx0 with
                      votes := votesF, votep := votepF,
                      status := .ABORTING } },
                false, sends1 ++ sends2⟩
            else
              let sends3 := curReg.map (fun p => (p, MsgType.PRECOMMIT_ABORT))
              if env.crashWait3 then
                ⟨{ st with
                    participants := reg1,
                    transactions := upsert st.transactions env.txId
                      { tx0 with
                        votes := votesF, votep := votepF,
                        acks := collectAckSync env.sync3 .ACK_ABORT
                          "ACK_ABORT" curReg,
                        status := .ABORTING } },
                  false, sends1 ++ sends2 ++ sends3⟩
              else
                ⟨{ st with
                    participants := reg1,
                    transactions := upsert st.transactions env.txId
                      { tx0 with
                        votes := votesF, votep := votepF,
                        acks := abortFinalAcks st env,
                        status := .ABORTED },
                    history := st.history ++ [⟨env.txId, .ABORTED, txData⟩] },
                  false, sends1 ++ sends2 ++ sends3⟩
    else
      let votes1 := phase1Votes st env
      let votep1 := (phase1Delayed st env).2
      let curReg := reg1.map Prod.fst
      if env.crash3 then
        ⟨{ st with
            participants := reg1,
            transactions := upsert st.transactions env.txId
              { tx0 with
                votes := votes1, votep := votep1, status := .ABORTING } },
          false, sends1⟩
      else
        let sends3 := curReg.map (fun p => (p, MsgType.CANCOMMIT_ABORT))
        if env.crashWait3 then
          ⟨{ st with
              participants := reg1,
              transactions := upsert st.transactions env.txId
                { tx0 with
                  votes := votes1, votep := votep1,
                  acks := collectAckSync env.sync3 .ACK_ABORT "ACK_ABORT"
                    curReg,
                  status := .ABORTING } },
            false, sends1 ++ sends3⟩
        else
          ⟨{ st with
              participants := reg1,
              transactions := upsert st.transactions env.txId
                { tx0 with
                  votes := votes1, votep := votep1,
                  acks := abortFinalAcks st env,
                  status := .ABORTED },
              history := st.history ++ [⟨env.txId, .ABORTED, txData⟩] },
            false, sends1 ++ sends3⟩

/-! ### Coordinator recovery (`_recover_coordinator`, lines 639-910) -/

/-- Environment for one `_complete_commit` / `_complete_abort` run during
recovery: synchronous per-participant replies, delayed ACK frames observed
during the wait, and the crash flag at the observation points. -/
structure CompleteEnv where
  sync : Pid → Option MsgType
  crashSend : Bool
  crashWait : Bool
  delayed : List (Pid × MsgType)

/-- `Coordinator._complete_commit` (lines 736-831): send COMMIT to every
participant of the *current* registry, collect `ACK_COMMIT`, fill missing
entries with `TIMEOUT` over the current registry, then decide by the count
comparison against the current registry size, appending the matching
history entry and setting a terminal status. -/
def complete_commit (st : CoordState) (txid : String) (d : TxData)
    (env : CompleteEnv) : CoordState :=
  let cur := st.participants.map Prod.fst
  if env.crashSend && !cur.isEmpty then st
  else
    let aS := collectAckSync env.sync .ACK_COMMIT "ACK_COMMIT" cur
    if env.crashWait then
      { st with
        transactions := setTx st.transactions txid (fun tx =>
          { tx with acks := aS }) }
    else
      let a3 := fillMissing (applyAckFrames aS env.delayed) cur "TIMEOUT"
      if ackSuccessCount a3 < cur.length then
        { st with
          transactions := setTx st.transactions txid (fun tx =>
            { tx with acks := a3, status := .ABORTED }),
          history := st.history ++ [⟨txid, .ABORTED, d⟩] }
      else
        { st with
          transactions := setTx st.transactions txid (fun tx =>
            { tx with acks := a3, status := .COMMITTED }),
          history := st.history ++ [⟨txid, .COMMITTED, d⟩] }

/-- `Coordinator._complete_abort` (lines 833-910): set the status to
`ABORTING` (line 839, before the sends; this send loop has no crash check),
send ABORT to every participant of the current registry, collect
`ACK_ABORT` with the `TIMEOUT` fill, then set `ABORTED` and append the
ABORTED history entry. -/
def complete_abort (st : CoordState) (txid : String) (d : TxData)
    (env : CompleteEnv) : CoordState :=
  let cur := st.participants.map Prod.fst
  let aS := collectAckSync env.sync .ACK_ABORT "ACK_ABORT" cur
  if env.crashWait then
    { st with
      transactions := setTx st.transactions txid (fun tx =>
        { tx with status := .ABORTING, acks := aS }) }
  else
    let a3 := fillMissing (applyAckFrames aS env.delayed) cur "TIMEOUT"
    { st with
      transactions := setTx st.transactions txid (fun tx =>
        { tx with acks := a3, status := .ABORTED }),
      history := st.history ++ [⟨txid, .ABORTED, d⟩] }

/-- The filter of line 649: only `WAITING`, `WAITED`, `PREPARING` and
`PREPARED` are treated as unfinished — `COMMITTING` and `ABORTING` appear
only in a comment there, so transactions left in those statuses are never
selected (which makes the decision branches of lines 711-729 for them
unreachable). -/
def isRecoverable (s : TxStatus) : Bool :=
  match s with
  | .WAITING | .WAITED | .PREPARING | .PREPARED => true
  | _ => false

/-- The code's vote-completeness test of line 702:
`len(votes) == len(tx_info['participants']) and all(votes.values())`. -/
def votesComplete (tx : TxRecord) : Bool :=
  (tx.votes.length == tx.participants.length) && allYesB tx.votes

/-- The decision of lines 694-729 for one selected transaction: pre-vote
statuses abort; `PREPARING`/`PREPARED` commit exactly when `votesComplete`;
all three sub-branches of the `COMMITTING`/`COMMITTED` case call
`_complete_commit` (the probe counts of lines 679-692 only affect logging);
`ABORTING`/`ABORTED` abort.  `true` means `_complete_commit`. -/
def recoverDecision (tx : TxRecord) : Bool :=
  match tx.status with
  | .WAITING | .WAITED => false
  | .PREPARING | .PREPARED => votesComplete tx
  | .COMMITTING | .COMMITTED => true
  | .ABORTING | .ABORTED => false

/-- `Coordinator._recover_coordinator` (lines 639-734): select the
unfinished transactions by the filter of line 649; if none, just clear the
crash flag; otherwise clear the flag and complete each selected transaction
according to `recoverDecision`, with a per-transaction completion
environment. -/
def recover (st : CoordState) (envs : String → CompleteEnv) : CoordState :=
  let sel := st.transactions.filter (fun e => isRecoverable e.2.status)
  if sel.isEmpty then { st with crashed := false }
  else
    sel.foldl
      (fun s e =>
        if recoverDecision e.2 then complete_commit s e.1 e.2.data (envs e.1)
        else complete_abort s e.1 e.2.data (envs e.1))
      { st with crashed := false }

/-! ### Helper lemmas about the coordinator model -/

theorem setTx_lookup_ne (txs : List (String × TxRecord)) (txid x : String)
    (f : TxRecord → TxRecord) (h : x ≠ txid) :
    alookup (setTx txs txid f) x = alookup txs x := by
  induction txs with
  | nil => simp [setTx]
  | cons e t ih =>
      obtain ⟨k0, v0⟩ := e
      by_cases hk : k0 = txid
      · subst hk
        simp only [setTx, List.map_cons, if_pos]
        simp only [alookup, Ne.symm h, if_neg, not_false_iff]
        simpa [setTx] using ih
      · simp only [setTx, List.map_cons, hk, if_neg, not_false_iff]
        unfold alookup
        by_cases hx : k0 = x
        · simp [hx]
        · simp only [hx, if_neg, not_false_iff]
          simpa [setTx] using ih

theorem setTx_lookup_self (txs : List (String × TxRecord)) (txid : String)
    (f : TxRecord → TxRecord) :
    alookup (setTx txs txid f) txid = (alookup txs txid).map f := by
  induction txs with
  | nil => simp [setTx, alookup]
  | cons e t ih =>
      obtain ⟨k0, v0⟩ := e
      by_cases hk : k0 = txid
      · subst hk
        simp only [setTx, List.map_cons, if_pos]
        simp [alookup]
      · simp only [setTx, List.map_cons, hk, if_neg, not_false_iff]
        unfold alookup
        simp only [hk, if_neg, not_false_iff]
        simpa [setTx] using ih

theorem setTx_status_map (txs : List (String × TxRecord)) (txid : String)
    (f : TxRecord → TxRecord) (hf : ∀ r, (f r).status = r.status) :
    (setTx txs txid f).map (fun e => (e.1, e.2.status)) =
      txs.map (fun e => (e.1, e.2.status)) := by
  induction txs with
  | nil => simp [setTx]
  | cons e t ih =>
      obtain ⟨k0, v0⟩ := e
      by_cases hk : k0 = txid <;>
        simp only [setTx, List.map_cons, hk, if_pos, if_neg, not_false_iff] <;>
        simp [hf, setTx] at ih ⊢ <;> exact ih

theorem complete_commit_lookup_ne (s : CoordState) (txid x : String)
    (d : TxData) (env : CompleteEnv) (h : x ≠ txid) :
    alookup (complete_commit s txid d env).transactions x =
      alookup s.transactions x := by
  unfold complete_commit
  by_cases h1 : (env.crashSend && !(s.participants.map Prod.fst).isEmpty) = true
  · simp [h1]
  · simp only [h1, if_neg, Bool.not_eq_true, not_false_iff]
    by_cases h2 : env.crashWait = true
    · simp [h2, setTx_lookup_ne _ _ _ _ h]
    · simp only [Bool.not_eq_true] at h2
      simp only [h2, Bool.false_eq_true, if_neg, not_false_iff]
      by_cases h3 : ackSuccessCount (fillMissing (applyAckFrames
          (collectAckSync env.sync .ACK_COMMIT "ACK_COMMIT"
            (s.participants.map Prod.fst)) env.delayed)
          (s.participants.map Prod.fst) "TIMEOUT") <
          s.participants.length
      · simp [h3, setTx_lookup_ne _ _ _ _ h]
      · simp [h3, setTx_lookup_ne _ _ _ _ h]

theorem complete_abort_lookup_ne (s : CoordState) (txid x : String)
    (d : TxData) (env : CompleteEnv) (h : x ≠ txid) :
    alookup (complete_abort s txid d env).transactions x =
      alookup s.transactions x := by
  unfold complete_abort
  by_cases h2 : env.crashWait = true
  · simp [h2, setTx_lookup_ne _ _ _ _ h]
  · simp only [Bool.not_eq_true] at h2
    simp [h2, setTx_lookup_ne _ _ _ _ h]

theorem alookup_unique {β : Type} {txs : List (String × β)} {k : String}
    {v w : β} (hnd : (akeys txs).Nodup) (hl : alookup txs k = some v)
    (hm : (k, w) ∈ txs) : w = v := by
  have := mem_alookup hnd hm
  rw [hl] at this
  exact (Option.some.injEq _ _).mp this.symm

/-- Folding completion steps over a list of selected transactions whose ids
all differ from `txid` leaves the entry of `txid` unchanged. -/
theorem foldl_complete_preserve (envs : String → CompleteEnv) (txid : String)
    (tx : TxRecord) (L : List (String × TxRecord)) :
    ∀ s : CoordState, (∀ e ∈ L, e.1 ≠ txid) →
      alookup s.transactions txid = some tx →
      alookup ((L.foldl
        (fun s e =>
          if recoverDecision e.2 then complete_commit s e.1 e.2.data (envs e.1)
          else complete_abort s e.1 e.2.data (envs e.1)) s).transactions)
        txid = some tx := by
  induction L with
  | nil =>
      intro s _ hl
      simpa using hl
  | cons e t ih =>
      intro s hne hl
      simp only [List.foldl_cons]
      apply ih
      · intro e2 he2
        exact hne e2 (List.mem_cons_of_mem _ he2)
      · have hnee : txid ≠ e.1 := (hne e (List.mem_cons_self _ _)).symm
        by_cases hdec : recoverDecision e.2 = true
        · rw [hdec, if_pos rfl]
          rw [complete_commit_lookup_ne _ _ _ _ _ hnee]
          exact hl
        · simp only [hdec, Bool.false_eq_true, if_neg, not_false_iff]
          rw [complete_abort_lookup_ne _ _ _ _ _ hnee]
          exact hl

/-- Recovery never touches a transaction the status filter of line 649 does
not select: its table entry is exactly preserved. -/
theorem recover_preserves_unselected (st : CoordState)
    (envs : String → CompleteEnv) (txid : String) (tx : TxRecord)
    (hnd : (akeys st.transactions).Nodup)
    (hl : alookup st.transactions txid = some tx)
    (hsel : isRecoverable tx.status = false) :
    alookup (recover st envs).transactions txid = some tx := by
  unfold recover
  by_cases hempty :
      (st.transactions.filter (fun e => isRecoverable e.2.status)).isEmpty = true
  · simp [hempty, hl]
  · simp only [hempty, Bool.false_eq_true, if_neg, not_false_iff]
    have hne : ∀ e ∈ st.transactions.filter (fun e => isRecoverable e.2.status),
        e.1 ≠ txid := by
      intro e he
      have hrec := List.of_mem_filter he
      intro hek
      have hmem := List.mem_of_mem_filter he
      have hmem2 : (txid, e.2) ∈ st.transactions := by
        rw [← hek]
        rwa [Prod.mk.eta]
      have : e.2 = tx := alookup_unique hnd hl hmem2
      rw [this, hsel] at hrec
      exact Bool.false_ne_true hrec
    exact foldl_complete_preserve envs txid tx _ _ hne hl

theorem mem_sadd (l : List String) (x y : String) :
    y ∈ sadd l x ↔ y ∈ l ∨ y = x := by
  unfold sadd
  by_cases h : x ∈ l
  · simp only [h, if_pos]
    constructor
    · exact Or.inl
    · rintro (hy | hy)
      · exact hy
      · exact hy ▸ h
  · simp [h]

theorem mem_sremove (l : List String) (x y : String) :
    y ∈ sremove l x ↔ y ∈ l ∧ y ≠ x := by
  simp [sremove]

/-- Disjointness of `prepared_transactions` from the two terminal
collections of a participant. -/
def prepDisj (st : PState) : Prop :=
  (∀ x ∈ st.prepared_transactions, x ∉ akeys st.committed_transactions) ∧
  (∀ x ∈ st.prepared_transactions, x ∉ st.aborted_transactions)

theorem applyHistoryEntry_prepDisj (st : PState) (e : HEntry)
    (hd : prepDisj st) : prepDisj (applyHistoryEntry st e) := by
  obtain ⟨h1, h2⟩ := hd
  unfold applyHistoryEntry
  cases e.status
  case COMMITTED =>
    constructor
    · intro x hx
      rw [mem_sremove] at hx
      rw [mem_akeys_upsert]
      rintro (hc | hc)
      · exact h1 x hx.1 hc
      · exact hx.2 hc
    · intro x hx
      rw [mem_sremove] at hx
      exact h2 x hx.1
  case ABORTED =>
    constructor
    · intro x hx
      rw [mem_sremove] at hx
      exact h1 x hx.1
    · intro x hx
      rw [mem_sremove] at hx
      rw [mem_sadd]
      rintro (hc | hc)
      · exact h2 x hx.1 hc
      · exact hx.2 hc
  all_goals exact ⟨h1, h2⟩

theorem replay_prepDisj (h : List HEntry) :
    ∀ st : PState, prepDisj st → prepDisj (h.foldl applyHistoryEntry st) := by
  induction h with
  | nil => intro st hd; exact hd
  | cons e t ih =>
      intro st hd
      exact ih _ (applyHistoryEntry_prepDisj st e hd)

/-- C3 (counterexample): the four per-transaction collections are NOT
pairwise disjoint after every operation sequence.  The standard
all-participants-registered run in which the operator votes `cancommit vote
yes` (adding the id to `waited_transactions`) and the coordinator then
aborts the transaction (another participant voted NO), ending with the
operator's `ack abort` (adding the id to `aborted_transactions` without
removing it from `waited_transactions`), leaves the id in both sets. -/
theorem C3_sets_disjoint_cex :
    ¬ (∀ x ∈ (runOps pInit
        [.recvCanCommit "T" [("k", "v")], .cmdCanCommitVote true,
          .recvCanCommitAbort "T" [("k", "v")], .cmdAckAbort]).waited_transactions,
        x ∉ (runOps pInit
        [.recvCanCommit "T" [("k", "v")], .cmdCanCommitVote true,
          .recvCanCommitAbort "T" [("k", "v")], .cmdAckAbort]).aborted_transactions) := by
  decide

/-- C3 (amended): what each participant operation does preserve is the
disjointness of `prepared_transactions` from `committed_transactions` and
from `aborted_transactions` — every step that inserts an id into a terminal
collection removes it from `prepared_transactions` in the same critical
section — provided an operator `precommit vote yes` concerns an id not
already in a terminal collection.  Full pairwise disjointness of all four
collections fails (see the counterexample): no abort path ever removes an
id from `waited_transactions`. -/
theorem C3_prepared_disjointness_preserved (st : PState) (op : POp)
    (hd : prepDisj st)
    (hpre : ∀ tx d, op = .cmdPreCommitVote true →
      st.pending_vote = some (tx, d) →
      tx ∉ akeys st.committed_transactions ∧ tx ∉ st.aborted_transactions) :
    prepDisj (pstep st op).st := by
  obtain ⟨h1, h2⟩ := hd
  cases op with
  | recvCanCommit tx d =>
      unfold pstep
      by_cases hc : st.crashed = true <;> simp [hc] <;> exact ⟨h1, h2⟩
  | recvPreCommit tx d =>
      unfold pstep
      by_cases hc : st.crashed = true <;> simp [hc] <;> exact ⟨h1, h2⟩
  | recvCommit tx d =>
      unfold pstep
      by_cases hc : st.crashed = true
      · simp [hc]; exact ⟨h1, h2⟩
      · simp only [Bool.not_eq_true] at hc
        simp only [hc, Bool.false_eq_true, if_neg, not_false_iff]
        by_cases hp : tx ∈ st.prepared_transactions <;> simp [hp] <;>
          exact ⟨h1, h2⟩
  | recvCanCommitAbort tx d =>
      unfold pstep
      by_cases hc : st.crashed = true <;> simp [hc] <;> exact ⟨h1, h2⟩
  | recvPreCommitAbort tx d =>
      unfold pstep
      by_cases hc : st.crashed = true <;> simp [hc] <;> exact ⟨h1, h2⟩
  | recvAbort tx d =>
      unfold pstep
      by_cases hc : st.crashed = true <;> simp [hc] <;> exact ⟨h1, h2⟩
  | cmdCanCommitVote yes =>
      unfold pstep
      cases hpv : st.pending_vote with
      | none => exact ⟨h1, h2⟩
      | some p =>
          obtain ⟨tx, d⟩ := p
          by_cases hy : yes = true <;> simp [hy] <;> exact ⟨h1, h2⟩
  | cmdPreCommitVote yes =>
      unfold pstep
      cases hpv : st.pending_vote with
      | none => exact ⟨h1, h2⟩
      | some p =>
          obtain ⟨tx, d⟩ := p
          by_cases hy : yes = true
          · subst hy
            obtain ⟨hc1, hc2⟩ := hpre tx d rfl hpv
            simp only [if_pos]
            constructor
            · intro x hx
              rw [mem_sadd] at hx
              rcases hx with hx | hx
              · exact h1 x hx
              · exact hx ▸ hc1
            · intro x hx
              rw [mem_sadd] at hx
              rcases hx with hx | hx
              · exact h2 x hx
              · exact hx ▸ hc2
          · simp [hy]
            exact ⟨h1, h2⟩
  | cmdAckCommit =>
      unfold pstep
      cases hpc : st.pending_commit with
      | none => exact ⟨h1, h2⟩
      | some p =>
          obtain ⟨tx, d⟩ := p
          by_cases hp : tx ∈ st.prepared_transactions
          · simp only [hp, if_pos]
            constructor
            · intro x hx
              rw [mem_sremove] at hx
              rw [mem_akeys_upsert]
              rintro (hcm | hcm)
              · exact h1 x hx.1 hcm
              · exact hx.2 hcm
            · intro x hx
              rw [mem_sremove] at hx
              exact h2 x hx.1
          · simp [hp]
            exact ⟨h1, h2⟩
  | cmdAckAbort =>
      unfold pstep
      cases hpc : st.pending_commit with
      | some p =>
          obtain ⟨tx, d⟩ := p
          constructor
          · intro x hx
            rw [mem_sremove] at hx
            exact h1 x hx.1
          · intro x hx
            rw [mem_sremove] at hx
            rw [mem_sadd]
            rintro (ha | ha)
            · exact h2 x hx.1 ha
            · exact hx.2 ha
      | none =>
          cases hpa : st.pending_abort with
          | none => exact ⟨h1, h2⟩
          | some p =>
              obtain ⟨tx, d⟩ := p
              constructor
              · intro x hx
                rw [mem_sremove] at hx
                exact h1 x hx.1
              · intro x hx
                rw [mem_sremove] at hx
                rw [mem_sadd]
                rintro (ha | ha)
                · exact h2 x hx.1 ha
                · exact hx.2 ha
  | voteTimeout tx =>
      unfold pstep
      cases hpv : st.pending_vote with
      | none => exact ⟨h1, h2⟩
      | some p =>
          obtain ⟨tx0, d⟩ := p
          by_cases ht : tx0 = tx <;> simp [ht] <;> exact ⟨h1, h2⟩
  | ackCommitTimeout tx =>
      unfold pstep
      cases hpc : st.pending_commit with
      | none => exact ⟨h1, h2⟩
      | some p =>
          obtain ⟨tx0, d⟩ := p
          by_cases ht : tx0 = tx
          · subst ht
            by_cases hp : tx0 ∈ st.prepared_transactions
            · simp only [hp, if_pos]
              constructor
              · intro x hx
                rw [mem_sremove] at hx
                rw [mem_akeys_upsert]
                rintro (hcm | hcm)
                · exact h1 x hx.1 hcm
                · exact hx.2 hcm
              · intro x hx
                rw [mem_sremove] at hx
                exact h2 x hx.1
            · simp [hp]
              exact ⟨h1, h2⟩
          · simp [ht]
            exact ⟨h1, h2⟩
  | ackAbortTimeout tx =>
      unfold pstep
      cases hpa : st.pending_abort with
      | none => exact ⟨h1, h2⟩
      | some p =>
          obtain ⟨tx0, d⟩ := p
          by_cases ht : tx0 = tx
          · subst ht
            simp only [if_pos]
            constructor
            · intro x hx
              rw [mem_sremove] at hx
              exact h1 x hx.1
            · intro x hx
              rw [mem_sremove] at hx
              rw [mem_sadd]
              rintro (ha | ha)
              · exact h2 x hx.1 ha
              · exact hx.2 ha
          · simp [ht]
            exact ⟨h1, h2⟩
  | crashOp => exact ⟨h1, h2⟩
  | recoverOp history =>
      unfold pstep
      by_cases hc : st.crashed = true
      · simp only [hc, if_pos]
        have := replay_prepDisj history st ⟨h1, h2⟩
        exact ⟨this.1, this.2⟩
      · simp [hc]
        exact ⟨h1, h2⟩

instance (st : PState) : Decidable (prepDisj st) := by
  unfold prepDisj
  infer_instance

/-- C3 (witness): the preservation theorem applied at a concrete state with
a prepared transaction and a commit step. -/
theorem C3_prepared_disjointness_preserved_w :
    prepDisj (pstep
      { pInit with
          prepared_transactions := ["T"],
          pending_commit := some ("T", [("k", "v")]) }
      .cmdAckCommit).st :=
  C3_prepared_disjointness_preserved _ _ (by decide)
    (fun tx d h => by cases h)

/-- C7: a non-crashed participant receiving COMMIT for a transaction id not
in `prepared_transactions` replies `ACK_ABORT` synchronously, stores no
pending commit, arms no timeout thread, and leaves the whole state
unchanged (`_handle_commit`, lines 255-258: the early return precedes both
the `pending_commit` assignment and the thread start). -/
theorem C7_commit_not_prepared (st : PState) (tx : String) (d : TxData)
    (hc : st.crashed = false) (hp : tx ∉ st.prepared_transactions) :
    pstep st (.recvCommit tx d) = ⟨st, some .ACK_ABORT, [], []⟩ := by
  simp [pstep, hc, hp]

/-- C7 (witness): the theorem applied to the fresh participant state. -/
theorem C7_commit_not_prepared_w :
    pstep pInit (.recvCommit "T1" [("k", "v")]) =
      ⟨pInit, some .ACK_ABORT, [], []⟩ :=
  C7_commit_not_prepared pInit "T1" [("k", "v")] rfl (by decide)

/-- C10: `_handle_cancommit` (lines 161-162) and `_handle_precommit` (lines
198-199) overwrite the single `pending_vote` slot unconditionally, sending
nothing; and the timeout thread armed for the dropped transaction
(`_wait_for_cancommit_vote` / `_wait_for_precommit_vote`), finding a
different transaction id in the slot, changes nothing and sends no vote. -/
theorem C10_pending_vote_overwritten (st : PState) (tx0 tx : String)
    (d0 d : TxData) (hc : st.crashed = false)
    (hpv : st.pending_vote = some (tx0, d0)) (hne : tx0 ≠ tx) :
    pstep st (.recvCanCommit tx d) =
      ⟨{ st with pending_vote := some (tx, d) }, none, [], [.voteT tx]⟩ ∧
    pstep st (.recvPreCommit tx d) =
      ⟨{ st with pending_vote := some (tx, d) }, none, [], [.voteT tx]⟩ ∧
    pstep { st with pending_vote := some (tx, d) } (.voteTimeout tx0) =
      ⟨{ st with pending_vote := some (tx, d) }, none, [], []⟩ := by
  refine ⟨?_, ?_, ?_⟩
  · simp [pstep, hc]
  · simp [pstep, hc]
  · simp [pstep, Ne.symm hne]

/-- C10 (witness): the theorem applied to a participant holding a pending
vote for transaction `A` when a CANCOMMIT for transaction `B` arrives. -/
theorem C10_pending_vote_overwritten_w :
    pstep { pInit with pending_vote := some ("A", []) }
        (.recvCanCommit "B" []) =
      ⟨{ { pInit with pending_vote := some ("A", []) } with
          pending_vote := some ("B", []) }, none, [], [.voteT "B"]⟩ :=
  (C10_pending_vote_overwritten _ "A" "B" [] [] rfl rfl (by decide)).1

/-- C8: with the registry empty and the coordinator not crashed,
`execute_transaction` returns `False` immediately (lines 195-197), before
the record creation of line 200: no transaction record, no send, no history
entry — the state is returned untouched. -/
theorem C8_empty_registry (st : CoordState) (env : DriverEnv) (d : TxData)
    (hc : st.crashed = false) (hp : st.participants = []) :
    execute_transaction st env d = ⟨st, false, []⟩ := by
  unfold execute_transaction
  simp [hc, hp]

/-- C8 (witness): the theorem applied to a fresh coordinator. -/
theorem C8_empty_registry_w :
    execute_transaction
        { participants := [], transactions := [], history := [],
          crashed := false }
        { txId := "t1", sync1 := fun _ => none, crash1 := false,
          delayed1 := [], regUpdates := [], sync2 := fun _ => none,
          crash2 := false, delayed2 := [], crashBefore3 := false,
          sync3 := fun _ => none, crash3 := false, crashWait3 := false,
          delayed3 := [] }
        [("k", "v")] =
      ⟨{ participants := [], transactions := [], history := [],
          crashed := false }, false, []⟩ :=
  C8_empty_registry _ _ _ rfl rfl

/-- Concrete table entry stuck in `COMMITTING` for the C2 counterexample. -/
def recC2 : TxRecord :=
  { data := [("k", "v")], participants := ["P1"], votes := [("P1", true)],
    votep := [("P1", true)], votec := [], acks := [], status := .COMMITTING }

/-- Crashed coordinator holding only that transaction. -/
def stC2 : CoordState :=
  { participants := [("P1", ("localhost", 6001))],
    transactions := [("t1", recC2)], history := [], crashed := true }

/-- C2 (counterexample): the filter of line 649 lists only `WAITING`,
`WAITED`, `PREPARING`, `PREPARED` (`COMMITTING` and `ABORTING` are commented
out), so recovery of a coordinator whose only transaction is in
`COMMITTING` selects nothing: it merely clears the crash flag, runs no
`complete_commit`, appends no history entry, and the transaction stays in
the non-terminal status `COMMITTING`. -/
theorem C2_committing_skipped_cex :
    recC2.status = .COMMITTING ∧
    recover stC2 (fun _ => ⟨fun _ => none, false, false, []⟩) =
      { stC2 with crashed := false } ∧
    alookup (recover stC2
        (fun _ => ⟨fun _ => none, false, false, []⟩)).transactions "t1" =
      some recC2 ∧
    (recover stC2 (fun _ => ⟨fun _ => none, false, false, []⟩)).history = [] := by
  refine ⟨rfl, by decide, by decide, by decide⟩

/-- C2 (amended): `_recover_coordinator` selects only transactions whose
status is `WAITING`, `WAITED`, `PREPARING` or `PREPARED`; a transaction
left in `COMMITTING` or `ABORTING` by a crash is never selected and its
table entry is preserved verbatim — it reaches no terminal status and gets
no history entry from recovery. -/
theorem C2_recovery_selection (st : CoordState)
    (envs : String → CompleteEnv) (txid : String) (tx : TxRecord)
    (hnd : (akeys st.transactions).Nodup)
    (hl : alookup st.transactions txid = some tx)
    (hs : tx.status = .COMMITTING ∨ tx.status = .ABORTING) :
    alookup (recover st envs).transactions txid = some tx :=
  recover_preserves_unselected st envs txid tx hnd hl
    (by rcases hs with h | h <;> simp [isRecoverable, h])

/-- C2 (witness): the amended theorem applied to the concrete crashed
coordinator above. -/
theorem C2_recovery_selection_w :
    alookup (recover stC2
        (fun _ => ⟨fun _ => none, false, false, []⟩)).transactions "t1" =
      some recC2 :=
  C2_recovery_selection stC2 _ "t1" recC2 (by decide) (by decide)
    (Or.inl rfl)

/-- Concrete `COMMITTED` record for the C9 counterexample. -/
def recC9 : TxRecord :=
  { data := [("k", "v")], participants := ["P1"], votes := [("P1", true)],
    votep := [("P1", true)], votec := [], acks := [("P1", "ACK_COMMIT")],
    status := .COMMITTED }

/-- Coordinator whose only transaction has committed. -/
def stC9 : CoordState :=
  { participants := [("P1", ("localhost", 6001))],
    transactions := [("t1", recC9)],
    history := [⟨"t1", .COMMITTED, [("k", "v")]⟩], crashed := false }

/-- C9 (counterexample): a terminal transaction record is NOT immutable.
The `VOTE_RESPONSE` handler (lines 98-108) checks only that the transaction
id is known — not its status — so a delayed vote frame arriving after the
transaction committed (e.g. an operator vote that came in after the
60-second window had already down-coded it) still rewrites the `votes`
field of the `COMMITTED` record. -/
theorem C9_terminal_mutated_cex :
    recC9.status = .COMMITTED ∧
    alookup (handleVoteResponse stC9 "P1" .CANCOMMIT_VOTE_NO
        "t1").transactions "t1" =
      some { recC9 with votes := [("P1", false)] } ∧
    ({ recC9 with votes := [("P1", false)] } : TxRecord) ≠ recC9 := by
  refine ⟨rfl, by decide, by decide⟩

/-- C9 (amended): what does hold is that the `status` field of every record
is untouched by delayed `VOTE_RESPONSE` / `ACK_RESPONSE` frames (they write
only `votes` / `votep` / `acks`), and that coordinator recovery leaves a
terminal-status record entirely unchanged (the filter of line 649 never
selects it) — so a terminal status is never reverted; but the vote and ACK
maps of a terminal record can still be overwritten (see the
counterexample). -/
theorem C9_terminal_status_never_reverted (st : CoordState) (pid : Pid)
    (m : MsgType) (txid : String) :
    ((handleVoteResponse st pid m txid).transactions.map
        (fun e => (e.1, e.2.status)) =
      st.transactions.map (fun e => (e.1, e.2.status))) ∧
    ((handleAckResponse st pid m txid).transactions.map
        (fun e => (e.1, e.2.status)) =
      st.transactions.map (fun e => (e.1, e.2.status))) ∧
    (∀ (txid2 : String) (tx : TxRecord) (envs : String → CompleteEnv),
      (akeys st.transactions).Nodup →
      alookup st.transactions txid2 = some tx →
      tx.status = .COMMITTED ∨ tx.status = .ABORTED →
      alookup (recover st envs).transactions txid2 = some tx) := by
  refine ⟨?_, ?_, ?_⟩
  · unfold handleVoteResponse
    by_cases hcr : st.crashed = true
    · simp [hcr]
    · simp only [Bool.not_eq_true] at hcr
      simp only [hcr, Bool.false_eq_true, if_neg, not_false_iff]
      cases alookup st.transactions txid with
      | none => rfl
      | some tx =>
          dsimp only
          apply setTx_status_map
          intro r
          cases m <;> rfl
  · unfold handleAckResponse
    by_cases hcr : st.crashed = true
    · simp [hcr]
    · simp only [Bool.not_eq_true] at hcr
      simp only [hcr, Bool.false_eq_true, if_neg, not_false_iff]
      cases alookup st.transactions txid with
      | none => rfl
      | some tx =>
          dsimp only
          apply setTx_status_map
          intro r
          rfl
  · intro txid2 tx envs hnd hl hs
    exact recover_preserves_unselected st envs txid2 tx hnd hl
      (by rcases hs with h | h <;> simp [isRecoverable, h])

/-- C9 (witness): the amended theorem applied to the committed-transaction
coordinator above. -/
theorem C9_terminal_status_never_reverted_w :
    alookup (recover stC9
        (fun _ => ⟨fun _ => none, false, false, []⟩)).transactions "t1" =
      some recC9 :=
  (C9_terminal_status_never_reverted stC9 "P1" .CANCOMMIT_VOTE_NO "t1").2.2
    "t1" recC9 _ (by decide) (by decide) (Or.inl rfl)

/-- C5: for a transaction recovered in status `PREPARING` or `PREPARED`,
the decision of lines 699-709 runs `_complete_commit` exactly when the
recorded CanCommit vote map covers every snapshot participant with a YES
(the code tests `len(votes) == len(participants) and all(votes.values())`,
which is equivalent under the always-true run invariant that recorded votes
come only from snapshot participants); in every other case it runs
`_complete_abort`, which (absent a crash during its wait) appends exactly
one `ABORTED` history entry and sets the status to `ABORTED`. -/
theorem C5_prepared_recovery_decision (tx : TxRecord)
    (hst : tx.status = .PREPARING ∨ tx.status = .PREPARED)
    (hnd : (akeys tx.votes).Nodup)
    (hsub : ∀ k ∈ akeys tx.votes, k ∈ tx.participants)
    (hpnd : tx.participants.Nodup) :
    (recoverDecision tx = true ↔
      ∀ p ∈ tx.participants, alookup tx.votes p = some true) ∧
    (∀ (s : CoordState) (txid : String) (d : TxData) (env : CompleteEnv),
      env.crashWait = false →
      (complete_abort s txid d env).history =
        s.history ++ [⟨txid, .ABORTED, d⟩] ∧
      (alookup (complete_abort s txid d env).transactions txid).map
          TxRecord.status =
        (alookup s.transactions txid).map (fun _ => TxStatus.ABORTED)) := by
  constructor
  · have hdec : recoverDecision tx = votesComplete tx := by
      rcases hst with h | h <;> rw [recoverDecision, h]
    rw [hdec]
    have hvc : votesComplete tx = true ↔
        (tx.votes.length = tx.participants.length ∧ allYesB tx.votes = true) := by
      unfold votesComplete
      rw [Bool.and_eq_true, beq_iff_eq]
    rw [hvc]
    exact votesFull_iff tx.participants tx.votes hnd hsub hpnd
  · intro s txid d env hcw
    unfold complete_abort
    simp only [hcw, Bool.false_eq_true, if_neg, not_false_iff]
    constructor
    · trivial
    · rw [setTx_lookup_self]
      cases alookup s.transactions txid <;> rfl

/-- C5 (witness): the theorem applied to a concrete `PREPARED` record with
a complete all-YES vote map. -/
theorem C5_prepared_recovery_decision_w :
    recoverDecision
        { data := [("k", "v")], participants := ["P1"],
          votes := [("P1", true)], votep := [], votec := [], acks := [],
          status := .PREPARED } = true ↔
      ∀ p ∈ ["P1"],
        alookup [("P1", true)] p = some true :=
  (C5_prepared_recovery_decision _ (Or.inr rfl) (by decide) (by decide)
    (by decide)).1

/-- C6: when the CanCommit vote map after the 60-second wait and the
missing-vote NO fill (lines 277-281) is not all-YES, the driver (absent a
crash) takes the CANCOMMIT_ABORT branch of lines 544-623: it sends
`CANCOMMIT` to each snapshot participant and then `CANCOMMIT_ABORT` to each
participant of the then-current registry, appends exactly one `ABORTED`
history entry, sets the record status to `ABORTED`, and returns `False`;
and every snapshot participant without a recorded vote is indeed filled in
as NO. -/
theorem C6_cancommit_abort_branch (st : CoordState) (env : DriverEnv)
    (d : TxData) (hc : st.crashed = false)
    (hp : st.participants.isEmpty = false) (h1 : env.crash1 = false)
    (h3 : env.crash3 = false) (hw3 : env.crashWait3 = false)
    (hny : phase1AllYes st env = false) :
    execute_transaction st env d =
      ⟨{ st with
          participants := regAfter st env,
          transactions := upsert st.transactions env.txId
            { data := d, participants := txSnapshot st,
              votes := phase1Votes st env,
              votep := (phase1Delayed st env).2, votec := [],
              acks := abortFinalAcks st env, status := .ABORTED },
          history := st.history ++ [⟨env.txId, .ABORTED, d⟩] },
        false,
        (txSnapshot st).map (fun p => (p, MsgType.CANCOMMIT)) ++
          ((regAfter st env).map Prod.fst).map
            (fun p => (p, MsgType.CANCOMMIT_ABORT))⟩ ∧
    (∀ p ∈ txSnapshot st, alookup (phase1Delayed st env).1 p = none →
      alookup (phase1Votes st env) p = some false) := by
  constructor
  · unfold execute_transaction
    simp [hc, hp, h1, hny, h3, hw3]
  · intro p hp2 hnone
    unfold phase1Votes
    rw [fillMissing_lookup false hp2, hnone]
    rfl

/-- One registered participant, fresh coordinator, for the C6 witness. -/
def stC6 : CoordState :=
  { participants := [("P1", ("localhost", 6001))], transactions := [],
    history := [], crashed := false }

/-- Driver environment in which P1 votes NO during the CanCommit wait. -/
def envC6 : DriverEnv :=
  { txId := "t6", sync1 := fun _ => none, crash1 := false,
    delayed1 := [("P1", .CANCOMMIT_VOTE_NO)], regUpdates := [],
    sync2 := fun _ => none, crash2 := false, delayed2 := [],
    crashBefore3 := false, sync3 := fun _ => none, crash3 := false,
    crashWait3 := false, delayed3 := [] }

/-- C6 (witness): the theorem applied to the NO-vote run above. -/
theorem C6_cancommit_abort_branch_w :
    (execute_transaction stC6 envC6 [("k", "v")]).ret = false := by
  rw [(C6_cancommit_abort_branch stC6 envC6 [("k", "v")] rfl rfl rfl rfl rfl
    (by decide)).1]

/-- Fresh coordinator with one registered participant for the C4
counterexample. -/
def stC4 : CoordState :=
  { participants := [("P1", ("localhost", 6001))], transactions := [],
    history := [], crashed := false }

/-- Run in which P1 votes YES in both phases while P2 registers during the
CanCommit wait. -/
def envC4 : DriverEnv :=
  { txId := "t4", sync1 := fun _ => none, crash1 := false,
    delayed1 := [("P1", .CANCOMMIT_VOTE_YES)],
    regUpdates := [("P2", ("localhost", 6002))],
    sync2 := fun _ => none, crash2 := false,
    delayed2 := [("P1", .PRECOMMIT_VOTE_YES)], crashBefore3 := false,
    sync3 := fun _ => none, crash3 := false, crashWait3 := false,
    delayed3 := [] }

/-- C4 (counterexample): the COMMIT send loop of line 374 iterates
`self.participants.keys()` — the then-current registry — not the snapshot,
so a participant that registered after the snapshot was taken receives the
COMMIT of an in-flight transaction. -/
theorem C4_snapshot_targets_cex :
    ("P2", MsgType.COMMIT) ∈
      (execute_transaction stC4 envC4 [("k", "v")]).sends ∧
    "P2" ∉ txSnapshot stC4 := by
  refine ⟨by decide, by decide⟩

/-- C4 (amended): only the CanCommit sends (line 223) and the PreCommit
sends (line 292) iterate the snapshot `participant_list`; the DoCommit and
abort-branch send loops (lines 374, 473, 553) iterate the registry as it
stands when that phase runs, in registry order — so a participant that
registered after the snapshot receives the phase-3 / abort message, and one
that deregistered is skipped.  (Absent a crash, the complete send log is
exactly the snapshot in order for the two vote phases followed by the
current registry in order for the decision phase.) -/
theorem C4_send_targets (st : CoordState) (env : DriverEnv) (d : TxData)
    (hc : st.crashed = false) (hp : st.participants.isEmpty = false)
    (h1 : env.crash1 = false) (h2 : env.crash2 = false)
    (hb3 : env.crashBefore3 = false) (h3 : env.crash3 = false)
    (hw3 : env.crashWait3 = false) :
    (execute_transaction st env d).sends =
      (txSnapshot st).map (fun p => (p, MsgType.CANCOMMIT)) ++
        (if phase1AllYes st env then
          (txSnapshot st).map (fun p => (p, MsgType.PRECOMMIT)) ++
            (if phase2AllYes st env then
              ((regAfter st env).map Prod.fst).map
                (fun p => (p, MsgType.COMMIT))
            else
              ((regAfter st env).map Prod.fst).map
                (fun p => (p, MsgType.PRECOMMIT_ABORT)))
        else
          ((regAfter st env).map Prod.fst).map
            (fun p => (p, MsgType.CANCOMMIT_ABORT))) := by
  unfold execute_transaction
  by_cases hy1 : phase1AllYes st env = true
  · by_cases hy2 : phase2AllYes st env = true
    · simp only [hc, hp, h1, h2, hb3, h3, hw3, hy1, hy2, Bool.false_eq_true,
        if_neg, if_pos, not_false_iff, if_true]
      split <;> simp [List.append_assoc]
    · simp only [Bool.not_eq_true] at hy2
      simp only [hc, hp, h1, h2, hb3, h3, hw3, hy1, hy2, Bool.false_eq_true,
        if_neg, if_pos, not_false_iff, if_true]
      simp [List.append_assoc]
  · simp only [Bool.not_eq_true] at hy1
    simp only [hc, hp, h1, h2, hb3, h3, hw3, hy1, Bool.false_eq_true,
      if_neg, if_pos, not_false_iff, if_true]

/-- C4 (witness): the amended theorem applied to the registration-drift run
of the counterexample, where both vote phases are all-YES. -/
theorem C4_send_targets_w :
    (execute_transaction stC4 envC4 [("k", "v")]).sends =
      [("P1", MsgType.CANCOMMIT), ("P1", MsgType.PRECOMMIT),
        ("P1", MsgType.COMMIT), ("P2", MsgType.COMMIT)] := by
  rw [C4_send_targets stC4 envC4 [("k", "v")] rfl rfl rfl rfl rfl rfl rfl]
  decide

/-- C1: the DoCommit decision (lines 417-463).  After the ACK wait, missing
snapshot ACKs are recorded as `TIMEOUT` (third conjunct); then — under the
run invariant that collected ACKs are keyed only by snapshot participants,
which is what the count test `success_count < len(participant_list)` relies
on — if every snapshot participant's ACK is `ACK_COMMIT` the driver appends
exactly one `COMMITTED` history entry, sets the status to `COMMITTED` and
returns `True`; otherwise (any `TIMEOUT` or other non-`ACK_COMMIT` value)
it appends exactly one `ABORTED` entry, sets `ABORTED` and returns `False`,
even though COMMIT was already sent. -/
theorem C1_docommit_outcome (st : CoordState) (env : DriverEnv) (d : TxData)
    (hc : st.crashed = false) (hp : st.participants.isEmpty = false)
    (h1 : env.crash1 = false) (h2 : env.crash2 = false)
    (hb3 : env.crashBefore3 = false) (h3 : env.crash3 = false)
    (hw3 : env.crashWait3 = false)
    (hy1 : phase1AllYes st env = true) (hy2 : phase2AllYes st env = true)
    (hnd : (akeys (commitCollectedAcks st env)).Nodup)
    (hsub : ∀ k ∈ akeys (commitCollectedAcks st env), k ∈ txSnapshot st)
    (hsnd : (txSnapshot st).Nodup) :
    ((∀ p ∈ txSnapshot st,
        alookup (commitFinalAcks st env) p = some "ACK_COMMIT") →
      (execute_transaction st env d).ret = true ∧
      (execute_transaction st env d).st.history =
        st.history ++ [⟨env.txId, .COMMITTED, d⟩] ∧
      (alookup (execute_transaction st env d).st.transactions
          env.txId).map TxRecord.status = some .COMMITTED) ∧
    ((¬ ∀ p ∈ txSnapshot st,
        alookup (commitFinalAcks st env) p = some "ACK_COMMIT") →
      (execute_transaction st env d).ret = false ∧
      (execute_transaction st env d).st.history =
        st.history ++ [⟨env.txId, .ABORTED, d⟩] ∧
      (alookup (execute_transaction st env d).st.transactions
          env.txId).map TxRecord.status = some .ABORTED) ∧
    (∀ p ∈ txSnapshot st, alookup (commitCollectedAcks st env) p = none →
      alookup (commitFinalAcks st env) p = some "TIMEOUT") := by
  have hkey := ackCount_ge_iff (txSnapshot st) (commitCollectedAcks st env)
    hnd hsub hsnd
  refine ⟨?_, ?_, ?_⟩
  · intro hall
    have hge : (txSnapshot st).length ≤
        ackSuccessCount (commitFinalAcks st env) := by
      apply hkey.mpr
      intro p hp2
      exact hall p hp2
    have hnlt : ¬ (ackSuccessCount (commitFinalAcks st env) <
        (txSnapshot st).length) := by omega
    have hres : execute_transaction st env d =
        ⟨{ st with
            participants := regAfter st env,
            transactions := upsert st.transactions env.txId
              { data := d, participants := txSnapshot st,
                votes := (phase2Delayed st env).1,
                votep := phase2Votep st env, votec := [],
                acks := commitFinalAcks st env, status := .COMMITTED },
            history := st.history ++ [⟨env.txId, .COMMITTED, d⟩] },
          true,
          (txSnapshot st).map (fun p => (p, MsgType.CANCOMMIT)) ++
            (txSnapshot st).map (fun p => (p, MsgType.PRECOMMIT)) ++
            ((regAfter st env).map Prod.fst).map
              (fun p => (p, MsgType.COMMIT))⟩ := by
      unfold execute_transaction
      simp only [hc, hp, h1, h2, hb3, h3, hw3, hy1, hy2, hnlt,
        Bool.false_eq_true, if_neg, if_pos, not_false_iff, if_true]
    rw [hres]
    refine ⟨rfl, rfl, ?_⟩
    rw [alookup_upsert_self]
    rfl
  · intro hnall
    have hnge : ¬ ((txSnapshot st).length ≤
        ackSuccessCount (commitFinalAcks st env)) := by
      intro hge
      exact hnall (hkey.mp hge)
    have hlt : ackSuccessCount (commitFinalAcks st env) <
        (txSnapshot st).length := by omega
    have hres : execute_transaction st env d =
        ⟨{ st with
            participants := regAfter st env,
            transactions := upsert st.transactions env.txId
              { data := d, participants := txSnapshot st,
                votes := (phase2Delayed st env).1,
                votep := phase2Votep st env, votec := [],
                acks := commitFinalAcks st env, status := .ABORTED },
            history := st.history ++ [⟨env.txId, .ABORTED, d⟩] },
          false,
          (txSnapshot st).map (fun p => (p, MsgType.CANCOMMIT)) ++
            (txSnapshot st).map (fun p => (p, MsgType.PRECOMMIT)) ++
            ((regAfter st env).map Prod.fst).map
              (fun p => (p, MsgType.COMMIT))⟩ := by
      unfold execute_transaction
      simp only [hc, hp, h1, h2, hb3, h3, hw3, hy1, hy2, hlt,
        Bool.false_eq_true, if_neg, if_pos, not_false_iff, if_true]
    rw [hres]
    refine ⟨rfl, rfl, ?_⟩
    rw [alookup_upsert_self]
    rfl
  · intro p hp2 hnone
    unfold commitFinalAcks
    rw [fillMissing_lookup "TIMEOUT" hp2, hnone]
    rfl

/-- One registered participant, fresh coordinator, for the C1 witness. -/
def stC1 : CoordState :=
  { participants := [("P1", ("localhost", 6001))], transactions := [],
    history := [], crashed := false }

/-- Run in which P1 votes YES in both phases and acknowledges the COMMIT. -/
def envC1 : DriverEnv :=
  { txId := "t1", sync1 := fun _ => none, crash1 := false,
    delayed1 := [("P1", .CANCOMMIT_VOTE_YES)], regUpdates := [],
    sync2 := fun _ => none, crash2 := false,
    delayed2 := [("P1", .PRECOMMIT_VOTE_YES)], crashBefore3 := false,
    sync3 := fun _ => none, crash3 := false, crashWait3 := false,
    delayed3 := [("P1", .ACK_COMMIT)] }

/-- C1 (witness): the theorem applied to the all-YES, all-ACK run above. -/
theorem C1_docommit_outcome_w :
    (execute_transaction stC1 envC1 [("k", "v")]).ret = true :=
  ((C1_docommit_outcome stC1 envC1 [("k", "v")] rfl rfl rfl rfl rfl rfl rfl
      (by decide) (by decide) (by decide) (by decide) (by decide)).1
    (by decide)).1
